import Mathlib

/-!
# Verification of the Google Analytics MCP relay server

Shallow embedding of the two deployable variants of the relay
(`src/index.ts`, the direct-store variant, and the bridge variant) and
proofs about the OAuth token lifecycle, the credential-refresh protocol,
the state-token round-trip and the error paths.

JavaScript semantics are modelled explicitly where they matter:
* `undefined` / absent values are `Option.none`;
* the `||` default operator tests JS truthiness (empty string and the
  number 0 are falsy), embodied by `jsOrStr`, `jsOrInt`, `jsTruthyStr`;
* awaited calls that can throw are `Except` parameters and the
  surrounding `try`/`catch` is explicit control flow.
-/

namespace Mcp

/-! ## JS truthiness helpers -/

/-- JS truthiness of a possibly-absent string: `undefined` and `""` are falsy. -/
def jsTruthyStr : Option String → Bool
  | none => false
  | some s => !(s = "")

/-- `v || d` for strings: the default is used when `v` is absent or empty. -/
def jsOrStr (v : Option String) (d : String) : String :=
  match v with
  | none => d
  | some s => if s = "" then d else s

/-- `v || d` for numbers: the default is used when `v` is absent or `0`. -/
def jsOrInt (v : Option Int) (d : Int) : Int :=
  match v with
  | none => d
  | some n => if n = 0 then d else n

/-- `new || old` for the refresh-token merge
(`credentials.refresh_token || refresh_token`, src/index.ts line 127):
keep the new token when it is a truthy string, otherwise fall back to the
previously stored value. -/
def jsOrOpt (newV oldV : Option String) : Option String :=
  if jsTruthyStr newV then newV else oldV

/-! ## Data model -/

/-- The `credentials` JSON object stored in the `integrations` table, and
also the shape of the token set returned by a refresh call. Every field can
be absent (`undefined`/`null` in JS). `expiry_date` is an epoch-millisecond
timestamp. -/
structure Credentials where
  access_token : Option String
  refresh_token : Option String
  expiry_date : Option Int
deriving DecidableEq, Repr

/-- Opaque report payload passed through verbatim from the analytics API. -/
structure ReportData where
  raw : Nat
deriving DecidableEq, Repr

/-- Result of the credential-store lookup in `POST /query`
(`supabase.from('integrations').select('credentials')...single()`):
either the query fails / no row exists, or a row with a possibly-null
`credentials` field is returned. -/
inductive Lookup where
  | noRecord
  | record (credentials : Option Credentials)
deriving DecidableEq, Repr

/-- One analytics API call as issued by the dispatcher. -/
inductive ApiCall where
  | runReport (property : String) (startDate endDate : String)
      (metrics : List String) (dimensions : List String) (limit : Option Int)
  | listAccountSummaries
deriving DecidableEq, Repr

/-- Observable downstream effects of one `POST /query` request, in order. -/
inductive Event where
  | refreshCall
  | storeUpdate (c : Credentials)
  | apiCall (c : ApiCall)
deriving DecidableEq, Repr

/-- JSON body of an HTTP response of the query/disconnect endpoints. -/
inductive Body where
  | error (msg : String)
  | data (d : ReportData)
  | success
deriving DecidableEq, Repr

/-- An HTTP response: status code plus JSON body. -/
structure HttpRes where
  status : Nat
  body : Body
deriving DecidableEq, Repr

/-! ## Query dispatcher (`app.post('/query')`, src/index.ts lines 92-193) -/

/-- Caller-supplied `params` of a tool request. -/
structure Params where
  property_id : Option String
  start_date : Option String
  end_date : Option String
  limit : Option Int
deriving DecidableEq, Repr

/-- `properties/${params.property_id}`: an absent id interpolates as the
string `undefined`, as JS template literals do. -/
def propertyStr (p : Params) : String :=
  "properties/" ++ (match p.property_id with | some s => s | none => "undefined")

/-- The report request of `case 'get_traffic_overview'` (lines 141-153). -/
def overviewCall (p : Params) : ApiCall :=
  .runReport (propertyStr p) (jsOrStr p.start_date "30daysAgo") (jsOrStr p.end_date "today")
    ["sessions", "activeUsers", "screenPageViews", "bounceRate"] ["date"] none

/-- The report request of `case 'get_top_pages'` (lines 156-165). -/
def topPagesCall (p : Params) : ApiCall :=
  .runReport (propertyStr p) (jsOrStr p.start_date "30daysAgo") (jsOrStr p.end_date "today")
    ["screenPageViews", "activeUsers"] ["pagePath"] (some (jsOrInt p.limit 10))

/-- The report request of `case 'get_traffic_sources'` (lines 168-176). -/
def sourcesCall (p : Params) : ApiCall :=
  .runReport (propertyStr p) (jsOrStr p.start_date "30daysAgo") (jsOrStr p.end_date "today")
    ["sessions", "activeUsers"] ["sessionSource", "sessionMedium"] none

/-- The freshness check `if (expiry_date && Date.now() > expiry_date)`
(line 117): JS truthiness of the number, then a strict comparison. -/
def isExpired (c : Credentials) (now : Int) : Bool :=
  match c.expiry_date with
  | none => false
  | some e => !(e = 0) && decide (now > e)

/-- The credentials persisted by the refresh block (lines 122-132):
access token and expiry come from the refresh response, the refresh token
is `credentials.refresh_token || refresh_token` (response token when
truthy, otherwise the previously stored one). -/
def refreshedCredentials (old resp : Credentials) : Credentials :=
  { access_token := resp.access_token
    refresh_token := jsOrOpt resp.refresh_token old.refresh_token
    expiry_date := resp.expiry_date }

/-- Issue one analytics API call (the `await analyticsData...` of a switch
case): the call is made, and a thrown API error is caught by the outer
`try`/`catch` and becomes a 500 with the message (line 191). -/
def issueCall (pre : List Event) (call : ApiCall) (apiResult : Except String ReportData) :
    List Event × HttpRes :=
  match apiResult with
  | .error msg => (pre ++ [.apiCall call], ⟨500, .error msg⟩)
  | .ok d => (pre ++ [.apiCall call], ⟨200, .data d⟩)

/-- The `switch (tool)` dispatch (lines 139-186). `pre` holds the events of
the refresh block that already ran before the switch. -/
def dispatch (pre : List Event) (tool : String) (params : Params)
    (apiResult : Except String ReportData) : List Event × HttpRes :=
  if tool = "get_traffic_overview" then issueCall pre (overviewCall params) apiResult
  else if tool = "get_top_pages" then issueCall pre (topPagesCall params) apiResult
  else if tool = "get_traffic_sources" then issueCall pre (sourcesCall params) apiResult
  else if tool = "list_properties" then issueCall pre .listAccountSummaries apiResult
  else (pre, ⟨400, .error ("Unknown tool: " ++ tool)⟩)

/-- The whole `POST /query` handler. External collaborators are
parameters: `lookup` is the store lookup result, `now` the clock,
`refreshResult` what `oauth2Client.refreshAccessToken()` produces when
called (`Except.error` = thrown, caught by the outer catch as a 500), and
`apiResult` what the analytics API produces when called. Returns the
ordered downstream effects and the HTTP response. -/
def queryHandler (lookup : Lookup) (now : Int) (refreshResult : Except String Credentials)
    (tool : String) (params : Params) (apiResult : Except String ReportData) :
    List Event × HttpRes :=
  match lookup with
  | .noRecord => ([], ⟨401, .error "Not connected to Google Analytics"⟩)
  | .record none => ([], ⟨401, .error "Not connected to Google Analytics"⟩)
  | .record (some creds) =>
    if isExpired creds now then
      match refreshResult with
      | .error msg => ([.refreshCall], ⟨500, .error msg⟩)
      | .ok resp =>
        dispatch [.refreshCall, .storeUpdate (refreshedCredentials creds resp)]
          tool params apiResult
    else
      dispatch [] tool params apiResult

/-! ## Disconnect (`app.post('/disconnect')`, src/index.ts lines 196-210) -/

/-- A stored integration row for a workspace (platform is fixed to
`google_analytics` by the update's filters). -/
structure Record where
  status : String
  credentials : Option Credentials
  connected_at : Option String
deriving DecidableEq, Repr

/-- The credential store, keyed by workspace id (at most one row per
`(workspace_id, platform)` by the upsert-on-conflict invariant). -/
def Store := String → Option Record

/-- Effect of the disconnect update
(`update({ status: 'disconnected', credentials: null })` filtered by
workspace id and platform) on the store: a matching row is cleared, a
missing row stays missing, other workspaces are untouched. -/
def applyDisconnect (s : Store) (workspace_id : String) : Store :=
  fun w =>
    if w = workspace_id then
      match s w with
      | some r => some { r with status := "disconnected", credentials := none }
      | none => none
    else s w

/-- Outcome of awaiting the supabase update builder: it resolves with a
result object carrying a possibly-set `error` field — supabase-js reports
store failures this way, which lines 81 and 104 of the same file exploit
by reading `error` from the resolved result — or the awaited call throws,
which is what a `try`/`catch` can observe. -/
inductive StoreOutcome where
  | resolved (error : Option String)
  | thrown (msg : String)
deriving DecidableEq, Repr

/-- The `POST /disconnect` handler (lines 196-210): the update is
awaited inside `try`/`catch`, but unlike the callback's upsert (line 81,
`if (error) throw error`) the resolved result is discarded without
reading its `error` field, so any resolved outcome — error set or not —
is answered `{success: true}`; only a thrown exception reaches the
catch's 500. -/
def disconnectHandler (updateResult : StoreOutcome) : HttpRes :=
  match updateResult with
  | .resolved _ => ⟨200, .success⟩
  | .thrown msg => ⟨500, .error msg⟩

/-! ## Base64 (Node `Buffer.toString('base64')` / `Buffer.from(·, 'base64')`)

The encoder produces the canonical padded base64 of a byte list. The
decoder models Node's lenient byte-level decoding: characters outside the
alphabet (including `=` padding) are skipped, then sextets are packed in
groups of four, a trailing group of two or three sextets yielding one or
two bytes. It is total, as Node's is. -/

/-- The standard base64 alphabet, as used by Node's `Buffer`. -/
def b64Alphabet : List Char :=
  "ABCDEFGHIJKLMNOPQRSTUVWXYZabcdefghijklmnopqrstuvwxyz0123456789+/".data

/-- Character for a sextet value. -/
def b64Char (n : Nat) : Char := b64Alphabet.getD n '='

/-- Sextet value of a character, `none` outside the alphabet. -/
def b64val (c : Char) : Option Nat := b64Alphabet.findIdx? (· == c)

/-- Encode a byte list as padded base64. -/
def b64encode : List Nat → List Char
  | [] => []
  | [a] => [b64Char (a / 4), b64Char (a % 4 * 16), '=', '=']
  | [a, b] => [b64Char (a / 4), b64Char (a % 4 * 16 + b / 16), b64Char (b % 16 * 4), '=']
  | a :: b :: c :: rest =>
    b64Char (a / 4) :: b64Char (a % 4 * 16 + b / 16) :: b64Char (b % 16 * 4 + c / 64) ::
      b64Char (c % 64) :: b64encode rest

/-- Pack a list of sextet values back into bytes. -/
def decodeVals : List Nat → List Nat
  | v1 :: v2 :: v3 :: v4 :: rest =>
    (v1 * 4 + v2 / 16) :: (v2 % 16 * 16 + v3 / 4) :: (v3 % 4 * 64 + v4) :: decodeVals rest
  | [v1, v2, v3] => [v1 * 4 + v2 / 16, v2 % 16 * 16 + v3 / 4]
  | [v1, v2] => [v1 * 4 + v2 / 16]
  | _ => []

/-- Decode a base64 string to bytes (lenient, total, like Node). -/
def b64decode (s : List Char) : List Nat := decodeVals (s.filterMap b64val)

/-! ## UTF-8 (Node `Buffer.from(string)` / `Buffer.prototype.toString()`)

The encoder is standard UTF-8 over Lean `Char` (unicode scalar values,
which is what well-formed JS strings carry). The decoder is the strict
inverse; it returns `none` on malformed input (Node substitutes U+FFFD
there instead, but no claim exercises malformed byte sequences). -/

/-- UTF-8 encoding of one scalar value. -/
def utf8EncodeChar (c : Char) : List Nat :=
  let n := c.toNat
  if n < 0x80 then [n]
  else if n < 0x800 then [0xC0 + n / 64, 0x80 + n % 64]
  else if n < 0x10000 then [0xE0 + n / 4096, 0x80 + n / 64 % 64, 0x80 + n % 64]
  else [0xF0 + n / 0x40000, 0x80 + n / 4096 % 64, 0x80 + n / 64 % 64, 0x80 + n % 64]

/-- UTF-8 encoding of a string's characters. -/
def utf8Encode (s : List Char) : List Nat := s.flatMap utf8EncodeChar

/-- `b` is a UTF-8 continuation byte. -/
def isCont (b : Nat) : Bool := 0x80 ≤ b && b < 0xC0

/-- Decode one scalar value off the front of a byte list (strict:
rejects stray continuation bytes, overlong forms and surrogates). -/
def utf8DecodeStep : List Nat → Option (Char × List Nat)
  | [] => none
  | b :: rest =>
    if b < 0x80 then some (Char.ofNat b, rest)
    else if b < 0xC2 then none
    else if b < 0xE0 then
      match rest with
      | b2 :: rest2 =>
        if isCont b2 then some (Char.ofNat ((b - 0xC0) * 64 + (b2 - 0x80)), rest2) else none
      | [] => none
    else if b < 0xF0 then
      match rest with
      | b2 :: b3 :: rest2 =>
        if isCont b2 && isCont b3 then
          if (b - 0xE0) * 4096 + (b2 - 0x80) * 64 + (b3 - 0x80) < 0x800 then none
          else if 0xD800 ≤ (b - 0xE0) * 4096 + (b2 - 0x80) * 64 + (b3 - 0x80) &&
              (b - 0xE0) * 4096 + (b2 - 0x80) * 64 + (b3 - 0x80) < 0xE000 then none
          else some (Char.ofNat ((b - 0xE0) * 4096 + (b2 - 0x80) * 64 + (b3 - 0x80)), rest2)
        else none
      | _ => none
    else if b < 0xF5 then
      match rest with
      | b2 :: b3 :: b4 :: rest2 =>
        if isCont b2 && isCont b3 && isCont b4 then
          if (b - 0xF0) * 0x40000 + (b2 - 0x80) * 4096 + (b3 - 0x80) * 64 + (b4 - 0x80)
              < 0x10000 then none
          else if 0x110000 ≤
              (b - 0xF0) * 0x40000 + (b2 - 0x80) * 4096 + (b3 - 0x80) * 64 + (b4 - 0x80) then none
          else some (Char.ofNat
            ((b - 0xF0) * 0x40000 + (b2 - 0x80) * 4096 + (b3 - 0x80) * 64 + (b4 - 0x80)), rest2)
        else none
      | _ => none
    else none

theorem utf8DecodeStep_length : ∀ (l : List Nat) (c : Char) (r : List Nat),
    utf8DecodeStep l = some (c, r) → r.length < l.length := by
  intro l c r h
  cases l with
  | nil => simp [utf8DecodeStep] at h
  | cons b rest =>
    unfold utf8DecodeStep at h
    repeat' split at h
    all_goals simp_all
    all_goals omega

/-- Strict UTF-8 decoding of a byte list. -/
def utf8Decode (l : List Nat) : Option (List Char) :=
  match l with
  | [] => some []
  | b :: rest =>
    match h : utf8DecodeStep (b :: rest) with
    | some (c, rest2) => (utf8Decode rest2).map (fun cs => c :: cs)
    | none => none
termination_by l.length
decreasing_by exact utf8DecodeStep_length _ _ _ h

/-! ### Round-trip of the byte-level codecs -/

/-- The sextet stream of the canonical encoding, before padding. -/
def encodeVals : List Nat → List Nat
  | [] => []
  | [a] => [a / 4, a % 4 * 16]
  | [a, b] => [a / 4, a % 4 * 16 + b / 16, b % 16 * 4]
  | a :: b :: c :: rest =>
    a / 4 :: (a % 4 * 16 + b / 16) :: (b % 16 * 4 + c / 64) :: c % 64 :: encodeVals rest

theorem b64val_b64Char : ∀ n < 64, b64val (b64Char n) = some n := by decide

theorem b64val_pad : b64val '=' = none := by decide

theorem b64encode_filterMap : ∀ bs : List Nat, (∀ x ∈ bs, x < 256) →
    (b64encode bs).filterMap b64val = encodeVals bs
  | [], _ => rfl
  | [a], h => by
    have ha : a < 256 := h a (by simp)
    simp [b64encode, encodeVals, List.filterMap_cons, b64val_pad,
      b64val_b64Char _ (show a / 4 < 64 by omega),
      b64val_b64Char _ (show a % 4 * 16 < 64 by omega)]
  | [a, b], h => by
    have ha : a < 256 := h a (by simp)
    have hb : b < 256 := h b (by simp)
    simp [b64encode, encodeVals, List.filterMap_cons, b64val_pad,
      b64val_b64Char _ (show a / 4 < 64 by omega),
      b64val_b64Char _ (show a % 4 * 16 + b / 16 < 64 by omega),
      b64val_b64Char _ (show b % 16 * 4 < 64 by omega)]
  | a :: b :: c :: d :: rest, h => by
    have ha : a < 256 := h a (by simp)
    have hb : b < 256 := h b (by simp)
    have hc : c < 256 := h c (by simp)
    have ih := b64encode_filterMap (d :: rest) (fun x hx => h x (by simp_all))
    simp only [b64encode, List.filterMap_cons,
      b64val_b64Char _ (show a / 4 < 64 by omega),
      b64val_b64Char _ (show a % 4 * 16 + b / 16 < 64 by omega),
      b64val_b64Char _ (show b % 16 * 4 + c / 64 < 64 by omega),
      b64val_b64Char _ (show c % 64 < 64 by omega), ih]
    rfl
  | [a, b, c], h => by
    have ha : a < 256 := h a (by simp)
    have hb : b < 256 := h b (by simp)
    have hc : c < 256 := h c (by simp)
    simp [b64encode, encodeVals, List.filterMap_cons, b64val_pad,
      b64val_b64Char _ (show a / 4 < 64 by omega),
      b64val_b64Char _ (show a % 4 * 16 + b / 16 < 64 by omega),
      b64val_b64Char _ (show b % 16 * 4 + c / 64 < 64 by omega),
      b64val_b64Char _ (show c % 64 < 64 by omega)]

theorem decodeVals_encodeVals : ∀ bs : List Nat, (∀ x ∈ bs, x < 256) →
    decodeVals (encodeVals bs) = bs
  | [], _ => rfl
  | [a], h => by
    have ha : a < 256 := h a (by simp)
    simp [encodeVals, decodeVals]
    omega
  | [a, b], h => by
    have ha : a < 256 := h a (by simp)
    have hb : b < 256 := h b (by simp)
    simp [encodeVals, decodeVals]
    omega
  | a :: b :: c :: d :: rest, h => by
    have ha : a < 256 := h a (by simp)
    have hb : b < 256 := h b (by simp)
    have hc : c < 256 := h c (by simp)
    have ih := decodeVals_encodeVals (d :: rest) (fun x hx => h x (by simp_all))
    simp [encodeVals, decodeVals, ih]
    omega
  | [a, b, c], h => by
    have ha : a < 256 := h a (by simp)
    have hb : b < 256 := h b (by simp)
    have hc : c < 256 := h c (by simp)
    simp [encodeVals, decodeVals]
    omega

theorem b64decode_encode (bs : List Nat) (h : ∀ x ∈ bs, x < 256) :
    b64decode (b64encode bs) = bs := by
  rw [b64decode, b64encode_filterMap bs h, decodeVals_encodeVals bs h]

/-- The scalar value of a `Char`, seen through its validity invariant. -/
theorem char_valid (c : Char) :
    c.toNat < 0xD800 ∨ (0xDFFF < c.toNat ∧ c.toNat < 0x110000) := c.valid

theorem utf8EncodeChar_lt (c : Char) : ∀ x ∈ utf8EncodeChar c, x < 256 := by
  have hv := char_valid c
  intro x hx
  by_cases k1 : c.toNat < 0x80
  · simp [utf8EncodeChar, k1] at hx
    omega
  · by_cases k2 : c.toNat < 0x800
    · simp [utf8EncodeChar, k1, k2] at hx
      rcases hx with rfl | rfl <;> omega
    · by_cases k3 : c.toNat < 0x10000
      · simp [utf8EncodeChar, k1, k2, k3] at hx
        rcases hx with rfl | rfl | rfl <;> omega
      · simp [utf8EncodeChar, k1, k2, k3] at hx
        rcases hx with rfl | rfl | rfl | rfl <;> omega

theorem utf8Decode_cons_some (b : Nat) (rest : List Nat) (c : Char) (rest2 : List Nat)
    (h : utf8DecodeStep (b :: rest) = some (c, rest2)) :
    utf8Decode (b :: rest) = (utf8Decode rest2).map (fun cs => c :: cs) := by
  rw [utf8Decode, h]

theorem utf8DecodeStep_one (b1 : Nat) (rest : List Nat) (h1 : b1 < 0x80) :
    utf8DecodeStep (b1 :: rest) = some (Char.ofNat b1, rest) := by
  unfold utf8DecodeStep
  simp [h1]

theorem utf8DecodeStep_two (b1 b2 : Nat) (rest : List Nat)
    (h1 : 0xC2 ≤ b1) (h2 : b1 < 0xE0) (h3 : 0x80 ≤ b2) (h4 : b2 < 0xC0) :
    utf8DecodeStep (b1 :: b2 :: rest) =
      some (Char.ofNat ((b1 - 0xC0) * 64 + (b2 - 0x80)), rest) := by
  unfold utf8DecodeStep
  have e1 : ¬ b1 < 0x80 := by omega
  have e2 : ¬ b1 < 0xC2 := by omega
  have e4 : isCont b2 = true := by simp [isCont]; omega
  simp [e1, e2, h2, e4]

theorem utf8DecodeStep_three (b1 b2 b3 : Nat) (rest : List Nat)
    (h1 : 0xE0 ≤ b1) (h2 : b1 < 0xF0) (h3 : 0x80 ≤ b2) (h4 : b2 < 0xC0)
    (h5 : 0x80 ≤ b3) (h6 : b3 < 0xC0)
    (h7 : 0x800 ≤ (b1 - 0xE0) * 4096 + (b2 - 0x80) * 64 + (b3 - 0x80))
    (h8 : (b1 - 0xE0) * 4096 + (b2 - 0x80) * 64 + (b3 - 0x80) < 0xD800 ∨
      0xE000 ≤ (b1 - 0xE0) * 4096 + (b2 - 0x80) * 64 + (b3 - 0x80)) :
    utf8DecodeStep (b1 :: b2 :: b3 :: rest) =
      some (Char.ofNat ((b1 - 0xE0) * 4096 + (b2 - 0x80) * 64 + (b3 - 0x80)), rest) := by
  unfold utf8DecodeStep
  have e1 : ¬ b1 < 0x80 := by omega
  have e2 : ¬ b1 < 0xC2 := by omega
  have e3 : ¬ b1 < 0xE0 := by omega
  have e4 : (isCont b2 && isCont b3) = true := by simp [isCont]; omega
  have e5 : ¬ (b1 - 0xE0) * 4096 + (b2 - 0x80) * 64 + (b3 - 0x80) < 0x800 := by omega
  have e6 : ((0xD800 : Nat) ≤ (b1 - 0xE0) * 4096 + (b2 - 0x80) * 64 + (b3 - 0x80) &&
      (b1 - 0xE0) * 4096 + (b2 - 0x80) * 64 + (b3 - 0x80) < 0xE000) = false := by
    simp only [Bool.and_eq_false_iff, decide_eq_false_iff_not]
    omega
  simp [e1, e2, e3, h2, e4, e5, e6]

theorem utf8DecodeStep_four (b1 b2 b3 b4 : Nat) (rest : List Nat)
    (h1 : 0xF0 ≤ b1) (h2 : b1 < 0xF5) (h3 : 0x80 ≤ b2) (h4 : b2 < 0xC0)
    (h5 : 0x80 ≤ b3) (h6 : b3 < 0xC0) (h7 : 0x80 ≤ b4) (h8 : b4 < 0xC0)
    (h9 : 0x10000 ≤ (b1 - 0xF0) * 0x40000 + (b2 - 0x80) * 4096 + (b3 - 0x80) * 64 + (b4 - 0x80))
    (h10 : (b1 - 0xF0) * 0x40000 + (b2 - 0x80) * 4096 + (b3 - 0x80) * 64 + (b4 - 0x80)
      < 0x110000) :
    utf8DecodeStep (b1 :: b2 :: b3 :: b4 :: rest) =
      some (Char.ofNat
        ((b1 - 0xF0) * 0x40000 + (b2 - 0x80) * 4096 + (b3 - 0x80) * 64 + (b4 - 0x80)), rest) := by
  unfold utf8DecodeStep
  have e1 : ¬ b1 < 0x80 := by omega
  have e2 : ¬ b1 < 0xC2 := by omega
  have e3 : ¬ b1 < 0xE0 := by omega
  have e3' : ¬ b1 < 0xF0 := by omega
  have e4 : (isCont b2 && isCont b3 && isCont b4) = true := by simp [isCont]; omega
  have e5 : ¬ (b1 - 0xF0) * 0x40000 + (b2 - 0x80) * 4096 + (b3 - 0x80) * 64 + (b4 - 0x80)
      < 0x10000 := by omega
  have e6 : ¬ (0x110000 : Nat) ≤
      (b1 - 0xF0) * 0x40000 + (b2 - 0x80) * 4096 + (b3 - 0x80) * 64 + (b4 - 0x80) := by omega
  simp [e1, e2, e3, e3', h2, e4, e5, e6]

theorem utf8Decode_encodeChar (c : Char) (rest : List Nat) :
    utf8Decode (utf8EncodeChar c ++ rest) = (utf8Decode rest).map (fun cs => c :: cs) := by
  have hv := char_valid c
  by_cases k1 : c.toNat < 0x80
  · rw [show utf8EncodeChar c = [c.toNat] by simp [utf8EncodeChar, k1]]
    have hstep := utf8DecodeStep_one c.toNat rest k1
    rw [Char.ofNat_toNat] at hstep
    rw [List.cons_append, List.nil_append]
    exact utf8Decode_cons_some _ _ _ _ hstep
  · by_cases k2 : c.toNat < 0x800
    · rw [show utf8EncodeChar c = [0xC0 + c.toNat / 64, 0x80 + c.toNat % 64] by
        simp [utf8EncodeChar, k1, k2]]
      have hstep := utf8DecodeStep_two (0xC0 + c.toNat / 64) (0x80 + c.toNat % 64) rest
        (by omega) (by omega) (by omega) (by omega)
      rw [show (0xC0 + c.toNat / 64 - 0xC0) * 64 + (0x80 + c.toNat % 64 - 0x80) = c.toNat by
        omega, Char.ofNat_toNat] at hstep
      rw [List.cons_append, List.cons_append, List.nil_append]
      exact utf8Decode_cons_some _ _ _ _ hstep
    · by_cases k3 : c.toNat < 0x10000
      · rw [show utf8EncodeChar c =
            [0xE0 + c.toNat / 4096, 0x80 + c.toNat / 64 % 64, 0x80 + c.toNat % 64] by
          simp [utf8EncodeChar, k1, k2, k3]]
        have hstep := utf8DecodeStep_three (0xE0 + c.toNat / 4096) (0x80 + c.toNat / 64 % 64)
          (0x80 + c.toNat % 64) rest (by omega) (by omega) (by omega) (by omega) (by omega)
          (by omega) (by omega) (by omega)
        rw [show (0xE0 + c.toNat / 4096 - 0xE0) * 4096 + (0x80 + c.toNat / 64 % 64 - 0x80) * 64 +
            (0x80 + c.toNat % 64 - 0x80) = c.toNat by omega, Char.ofNat_toNat] at hstep
        rw [List.cons_append, List.cons_append, List.cons_append, List.nil_append]
        exact utf8Decode_cons_some _ _ _ _ hstep
      · rw [show utf8EncodeChar c = [0xF0 + c.toNat / 0x40000, 0x80 + c.toNat / 4096 % 64,
            0x80 + c.toNat / 64 % 64, 0x80 + c.toNat % 64] by
          simp [utf8EncodeChar, k1, k2, k3]]
        have hstep := utf8DecodeStep_four (0xF0 + c.toNat / 0x40000) (0x80 + c.toNat / 4096 % 64)
          (0x80 + c.toNat / 64 % 64) (0x80 + c.toNat % 64) rest (by omega) (by omega) (by omega)
          (by omega) (by omega) (by omega) (by omega) (by omega) (by omega) (by omega)
        rw [show (0xF0 + c.toNat / 0x40000 - 0xF0) * 0x40000 +
            (0x80 + c.toNat / 4096 % 64 - 0x80) * 4096 + (0x80 + c.toNat / 64 % 64 - 0x80) * 64 +
            (0x80 + c.toNat % 64 - 0x80) = c.toNat by omega, Char.ofNat_toNat] at hstep
        rw [List.cons_append, List.cons_append, List.cons_append, List.cons_append,
          List.nil_append]
        exact utf8Decode_cons_some _ _ _ _ hstep

theorem utf8Decode_encode (s : List Char) : utf8Decode (utf8Encode s) = some s := by
  induction s with
  | nil => rw [utf8Encode, List.flatMap_nil, utf8Decode]
  | cons c cs ih =>
    rw [utf8Encode, List.flatMap_cons, ← utf8Encode, utf8Decode_encodeChar, ih]
    rfl

theorem utf8Encode_lt (s : List Char) : ∀ x ∈ utf8Encode s, x < 256 := by
  intro x hx
  rw [utf8Encode, List.mem_flatMap] at hx
  obtain ⟨c, _, hc⟩ := hx
  exact utf8EncodeChar_lt c x hc

/-! ## JSON (the fragment exercised by the state token)

`JSON.stringify` applied to the state record emits a single flat object
whose values are strings, with no whitespace, escaping `"`, `\` and
control characters (short escapes for `\b \t \n \f \r`, lowercase
`\u00XX` otherwise) and dropping `undefined` properties. `JSON.parse` is
modelled on exactly this fragment: one object of string-valued members.
(`\uXXXX` parsing is inverse to what stringify emits; surrogate-pair
recombination is not modelled since stringify only uses `\u` below
U+0020.) -/

/-- Hex digit character (lowercase) of a value below 16, as used in
the `\u00XX` escapes. -/
def hexDigitChar (n : Nat) : Char := "0123456789abcdef".data.getD n '0'

/-- Value of a hex digit character. -/
def parseHexDigit (c : Char) : Option Nat := "0123456789abcdef".data.findIdx? (· == c)

/-- The six-character `\u00XX` escape of a control character's code. -/
def hexEscape (n : Nat) : List Char :=
  '\\' :: 'u' :: '0' :: '0' :: hexDigitChar (n / 16) :: [hexDigitChar (n % 16)]

/-- `JSON.stringify`'s escaping of one character inside a string literal. -/
def escChar (c : Char) : List Char :=
  if c = '"' then ['\\', '"']
  else if c = '\\' then ['\\', '\\']
  else if c = '\x08' then ['\\', 'b']
  else if c = '\t' then ['\\', 't']
  else if c = '\n' then ['\\', 'n']
  else if c = '\x0c' then ['\\', 'f']
  else if c = '\r' then ['\\', 'r']
  else if c.toNat < 0x20 then hexEscape c.toNat
  else [c]

/-- `JSON.stringify`'s escaping of a whole string body. -/
def escape (s : List Char) : List Char := s.flatMap escChar

/-- A JSON string literal followed by `tail`:
`"` + escaped body + `"` + tail. -/
def strLit (s : List Char) (tail : List Char) : List Char :=
  '"' :: (escape s ++ '"' :: tail)

/-- Decode one backslash escape: the character after the backslash and
the remaining input. -/
def parseEsc (e : Char) (rest2 : List Char) : Option (Option Char × List Char) :=
  if e = '"' then some (some '"', rest2)
  else if e = '\\' then some (some '\\', rest2)
  else if e = '/' then some (some '/', rest2)
  else if e = 'b' then some (some '\x08', rest2)
  else if e = 't' then some (some '\t', rest2)
  else if e = 'n' then some (some '\n', rest2)
  else if e = 'f' then some (some '\x0c', rest2)
  else if e = 'r' then some (some '\r', rest2)
  else if e = 'u' then
    match rest2 with
    | h1 :: h2 :: h3 :: h4 :: rest3 =>
      match parseHexDigit h1, parseHexDigit h2, parseHexDigit h3, parseHexDigit h4 with
      | some v1, some v2, some v3, some v4 =>
        some (some (Char.ofNat (4096 * v1 + 256 * v2 + 16 * v3 + v4)), rest3)
      | _, _, _, _ => none
    | _ => none
  else none

theorem parseEsc_length (e : Char) (rest2 : List Char) (oc : Option Char) (r : List Char)
    (hp : parseEsc e rest2 = some (oc, r)) : r.length ≤ rest2.length := by
  unfold parseEsc at hp
  repeat' (split at hp)
  all_goals simp only [Prod.mk.injEq, Option.some.injEq, reduceCtorEq] at hp
  all_goals (try obtain ⟨h1, rfl⟩ := hp)
  all_goals simp_all
  all_goals omega

/-- Scan one item at the head `c` of a string body, `rest` being the
input after `c`. -/
def parseStrStepCons (c : Char) (rest : List Char) : Option (Option Char × List Char) :=
  if c = '"' then some (none, rest)
  else if c = '\\' then
    match rest with
    | [] => none
    | e :: rest2 => parseEsc e rest2
  else if c.toNat < 0x20 then none
  else some (some c, rest)

/-- Scan one item of a JSON string body: `none` on exhausted/invalid
input, `some (none, rest)` at the closing quote, `some (some c, rest)`
for one (possibly escaped) character. -/
def parseStrStep : List Char → Option (Option Char × List Char)
  | [] => none
  | c :: rest => parseStrStepCons c rest

theorem parseStrStepCons_length (c : Char) (rest : List Char) (oc : Option Char) (r : List Char)
    (hp : parseStrStepCons c rest = some (oc, r)) : r.length ≤ rest.length := by
  unfold parseStrStepCons at hp
  repeat' (split at hp)
  all_goals first
    | (have hl := parseEsc_length _ _ _ _ hp
       simp only [List.length_cons]
       omega)
    | simp only [reduceCtorEq] at hp
    | (simp only [Prod.mk.injEq, Option.some.injEq] at hp
       obtain ⟨h1, rfl⟩ := hp
       exact Nat.le_refl _)

theorem parseStrStep_length : ∀ (s : List Char) (oc : Option Char) (r : List Char),
    parseStrStep s = some (oc, r) → r.length < s.length := by
  intro s oc r h
  cases s with
  | nil => simp [parseStrStep] at h
  | cons c rest =>
    have hl := parseStrStepCons_length c rest oc r h
    simp only [List.length_cons]
    omega

/-- Parse a JSON string body up to its closing quote, returning the
decoded characters and the input after the quote. -/
def parseStrBody (s : List Char) : Option (List Char × List Char) :=
  match h : parseStrStep s with
  | none => none
  | some (none, rest) => some ([], rest)
  | some (some c, rest) => (parseStrBody rest).map (fun p => (c :: p.1, p.2))
termination_by s.length
decreasing_by exact parseStrStep_length _ _ _ h

theorem parseStrBody_step_close (s rest : List Char) (h : parseStrStep s = some (none, rest)) :
    parseStrBody s = some ([], rest) := by
  rw [parseStrBody, h]

theorem parseStrBody_step_ch (s : List Char) (c : Char) (rest : List Char)
    (h : parseStrStep s = some (some c, rest)) :
    parseStrBody s = (parseStrBody rest).map (fun p => (c :: p.1, p.2)) := by
  rw [parseStrBody, h]

theorem parseHexDigit_hexDigitChar : ∀ n < 16, parseHexDigit (hexDigitChar n) = some n := by
  decide

theorem parseStrStep_escChar (c : Char) (tail : List Char) :
    parseStrStep (escChar c ++ tail) = some (some c, tail) := by
  by_cases k1 : c = '"'
  · subst k1; simp [escChar, parseStrStep, parseStrStepCons, parseEsc]
  · by_cases k2 : c = '\\'
    · subst k2; simp [escChar, parseStrStep, parseStrStepCons, parseEsc]
    · by_cases k3 : c = '\x08'
      · subst k3; simp [escChar, parseStrStep, parseStrStepCons, parseEsc]
      · by_cases k4 : c = '\t'
        · subst k4; simp [escChar, parseStrStep, parseStrStepCons, parseEsc]
        · by_cases k5 : c = '\n'
          · subst k5; simp [escChar, parseStrStep, parseStrStepCons, parseEsc]
          · by_cases k6 : c = '\x0c'
            · subst k6; simp [escChar, parseStrStep, parseStrStepCons, parseEsc]
            · by_cases k7 : c = '\r'
              · subst k7; simp [escChar, parseStrStep, parseStrStepCons, parseEsc]
              · by_cases k8 : c.toNat < 0x20
                · have e0 : parseHexDigit '0' = some 0 := by decide
                  have eh : parseHexDigit (hexDigitChar (c.toNat / 16)) = some (c.toNat / 16) :=
                    parseHexDigit_hexDigitChar _ (by omega)
                  have el : parseHexDigit (hexDigitChar (c.toNat % 16)) = some (c.toNat % 16) :=
                    parseHexDigit_hexDigitChar _ (by omega)
                  rw [show escChar c = '\\' :: 'u' :: '0' :: '0' ::
                      hexDigitChar (c.toNat / 16) :: [hexDigitChar (c.toNat % 16)] by
                    simp [escChar, hexEscape, k1, k2, k3, k4, k5, k6, k7, k8]]
                  simp only [List.cons_append, List.nil_append]
                  rw [show parseStrStep ('\\' :: 'u' :: '0' :: '0' ::
                      hexDigitChar (c.toNat / 16) :: hexDigitChar (c.toNat % 16) :: tail)
                      = parseEsc 'u' ('0' :: '0' ::
                        hexDigitChar (c.toNat / 16) :: hexDigitChar (c.toNat % 16) :: tail) by
                    simp [parseStrStep, parseStrStepCons]]
                  unfold parseEsc
                  simp only [e0, eh, el]
                  simp
                  rw [show (16 * (c.toNat / 16) + c.toNat % 16 : Nat) = c.toNat by omega,
                    Char.ofNat_toNat]
                · rw [show escChar c = [c] by simp [escChar, k1, k2, k3, k4, k5, k6, k7, k8]]
                  simp only [List.cons_append, List.nil_append]
                  simp [parseStrStep, parseStrStepCons, k1, k2, k8]

theorem parseStrBody_escape (s : List Char) :
    ∀ rest : List Char, parseStrBody (escape s ++ '"' :: rest) = some (s, rest) := by
  induction s with
  | nil =>
    intro rest
    rw [escape, List.flatMap_nil, List.nil_append]
    exact parseStrBody_step_close _ _ (by simp [parseStrStep, parseStrStepCons])
  | cons c cs ih =>
    intro rest
    rw [escape, List.flatMap_cons, ← escape, List.append_assoc]
    rw [parseStrBody_step_ch _ c _ (parseStrStep_escChar c _), ih rest]
    rfl

/-- Parse the members of a JSON object after the opening `{`: a
comma-separated sequence of `"key":"value"` pairs up to the closing `}`.
(The fuel argument only bounds the number of members; callers pass the
input length, which always suffices.) -/
def parseMembers : Nat → List Char → Option (List (List Char × List Char) × List Char)
  | 0, _ => none
  | fuel + 1, s =>
    match s with
    | '"' :: rest =>
      match parseStrBody rest with
      | some (k, rest1) =>
        match rest1 with
        | ':' :: '"' :: rest2 =>
          match parseStrBody rest2 with
          | some (v, rest3) =>
            match rest3 with
            | ',' :: rest4 => (parseMembers fuel rest4).map (fun p => ((k, v) :: p.1, p.2))
            | '}' :: rest4 => some ([(k, v)], rest4)
            | _ => none
          | none => none
        | _ => none
      | none => none
    | _ => none

theorem parseMembers_cons (f : Nat) (k v rest : List Char) :
    parseMembers (f + 1) (strLit k (':' :: strLit v (',' :: rest)))
      = (parseMembers f rest).map (fun p => ((k, v) :: p.1, p.2)) := by
  rw [strLit, strLit, parseMembers]
  rw [parseStrBody_escape k (':' :: '"' :: (escape v ++ '"' :: (',' :: rest)))]
  simp [parseStrBody_escape v (',' :: rest)]

theorem parseMembers_last (f : Nat) (k v rest : List Char) :
    parseMembers (f + 1) (strLit k (':' :: strLit v ('}' :: rest))) = some ([(k, v)], rest) := by
  rw [strLit, strLit, parseMembers]
  rw [parseStrBody_escape k (':' :: '"' :: (escape v ++ '"' :: ('}' :: rest)))]
  simp [parseStrBody_escape v ('}' :: rest)]

/-- Parse a JSON object of string-valued members (the fragment
`JSON.stringify` emits for the state record); `JSON.parse` restricted to
this fragment. -/
def jsonParseObj (s : List Char) : Option (List (List Char × List Char)) :=
  match s with
  | '{' :: rest =>
    if rest = ['}'] then some []
    else
      match parseMembers rest.length rest with
      | some (ms, []) => some ms
      | _ => none
  | _ => none

/-! ## The state token (`/auth/init` and `/callback`)

`src/index.ts` line 38 / bridge variant lines 35-39 encode
`{workspace_id, organization_id?, redirect_url}` with
`Buffer.from(JSON.stringify(...)).toString('base64')`; the callback
decodes with `JSON.parse(Buffer.from(state, 'base64').toString())` and
destructures the three fields (absent keys destructure to `undefined`). -/

/-- The correlation record carried by the state token (bridge variant:
`organization_id` may be `undefined`, in which case `JSON.stringify`
drops the key). -/
structure StateRecord where
  workspace_id : String
  organization_id : Option String
  redirect_url : String
deriving DecidableEq, Repr

/-- What destructuring the parsed state yields: each field is `undefined`
when missing. -/
structure DecodedState where
  workspace_id : Option String
  organization_id : Option String
  redirect_url : Option String
deriving DecidableEq, Repr

/-- `JSON.stringify({workspace_id, organization_id, redirect_url})`:
one flat object, insertion order, `undefined` `organization_id` omitted. -/
def stringifyState (r : StateRecord) : List Char :=
  '{' :: strLit "workspace_id".data (':' :: strLit r.workspace_id.data (
    match r.organization_id with
    | some o => ',' :: strLit "organization_id".data (':' :: strLit o.data
        (',' :: strLit "redirect_url".data (':' :: strLit r.redirect_url.data ['}'])))
    | none => ',' :: strLit "redirect_url".data (':' :: strLit r.redirect_url.data ['}'])))

/-- Value of a key in a parsed member list (`find?` = first occurrence,
as JS object construction keeps the last duplicate; stringify emits
distinct keys so the distinction never arises on encoder output). -/
def memberLookup (ms : List (List Char × List Char)) (k : List Char) : Option (List Char) :=
  (ms.find? (fun m => m.1 == k)).map (fun m => m.2)

/-- Destructure `{workspace_id, organization_id, redirect_url}` from a
parsed object. -/
def decodeStateMembers (ms : List (List Char × List Char)) : DecodedState :=
  { workspace_id := (memberLookup ms "workspace_id".data).map (fun cs => String.mk cs)
    organization_id := (memberLookup ms "organization_id".data).map (fun cs => String.mk cs)
    redirect_url := (memberLookup ms "redirect_url".data).map (fun cs => String.mk cs) }

/-- The auth initiator's state encoding:
`Buffer.from(JSON.stringify(record)).toString('base64')`. -/
def encodeState (r : StateRecord) : List Char :=
  b64encode (utf8Encode (stringifyState r))

/-- The callback's state decoding:
`JSON.parse(Buffer.from(state, 'base64').toString())` plus field
destructuring; `none` models a thrown `SyntaxError`. -/
def decodeState (s : List Char) : Option DecodedState :=
  (utf8Decode (b64decode s)).bind (fun cs => (jsonParseObj cs).map decodeStateMembers)

/-! ### Round-trip of the state token -/

theorem strLit_ne_closeBrace (k t : List Char) : strLit k t ≠ ['}'] := by
  simp [strLit]

theorem strLit_length (k t : List Char) :
    (strLit k t).length = (escape k).length + t.length + 2 := by
  simp [strLit]
  omega

theorem parseMembers_state2 (fuel : Nat) (h : 2 ≤ fuel) (ws ru : List Char) :
    parseMembers fuel (strLit "workspace_id".data (':' :: strLit ws (',' ::
      strLit "redirect_url".data (':' :: strLit ru ['}'])))) =
    some ([("workspace_id".data, ws), ("redirect_url".data, ru)], []) := by
  obtain ⟨f, rfl⟩ : ∃ f, fuel = f + 1 + 1 := ⟨fuel - 2, by omega⟩
  rw [parseMembers_cons, parseMembers_last]
  rfl

theorem parseMembers_state3 (fuel : Nat) (h : 3 ≤ fuel) (ws o ru : List Char) :
    parseMembers fuel (strLit "workspace_id".data (':' :: strLit ws (',' ::
      strLit "organization_id".data (':' :: strLit o (',' ::
        strLit "redirect_url".data (':' :: strLit ru ['}'])))))) =
    some ([("workspace_id".data, ws), ("organization_id".data, o),
      ("redirect_url".data, ru)], []) := by
  obtain ⟨f, rfl⟩ : ∃ f, fuel = f + 1 + 1 + 1 := ⟨fuel - 3, by omega⟩
  rw [parseMembers_cons, parseMembers_cons, parseMembers_last]
  rfl

/-- The member list `JSON.parse` recovers from a stringified state
record. -/
def stateMembers (r : StateRecord) : List (List Char × List Char) :=
  match r.organization_id with
  | some o => [("workspace_id".data, r.workspace_id.data),
      ("organization_id".data, o.data), ("redirect_url".data, r.redirect_url.data)]
  | none => [("workspace_id".data, r.workspace_id.data),
      ("redirect_url".data, r.redirect_url.data)]

theorem jsonParseObj_stringifyState (r : StateRecord) :
    jsonParseObj (stringifyState r) = some (stateMembers r) := by
  rcases r with ⟨ws, org, ru⟩
  cases org with
  | none =>
    rw [show stringifyState ⟨ws, none, ru⟩ = '{' :: strLit "workspace_id".data (':' ::
        strLit ws.data (',' :: strLit "redirect_url".data (':' ::
          strLit ru.data ['}']))) from rfl]
    rw [jsonParseObj]
    rw [if_neg (strLit_ne_closeBrace _ _)]
    rw [parseMembers_state2 _ (by rw [strLit_length]; omega)]
    rfl
  | some o =>
    rw [show stringifyState ⟨ws, some o, ru⟩ = '{' :: strLit "workspace_id".data (':' ::
        strLit ws.data (',' :: strLit "organization_id".data (':' :: strLit o.data (',' ::
          strLit "redirect_url".data (':' :: strLit ru.data ['}']))))) from rfl]
    rw [jsonParseObj]
    rw [if_neg (strLit_ne_closeBrace _ _)]
    rw [parseMembers_state3 _ (by rw [strLit_length]; simp [List.length_cons]; omega)]
    rfl

theorem string_mk_data (s : String) : String.mk s.data = s := rfl

theorem decodeStateMembers_state (r : StateRecord) :
    decodeStateMembers (stateMembers r) =
      ⟨some r.workspace_id, r.organization_id, some r.redirect_url⟩ := by
  have d1 : ("workspace_id".data == "organization_id".data) = false := by decide
  have d2 : ("workspace_id".data == "redirect_url".data) = false := by decide
  have d3 : ("organization_id".data == "workspace_id".data) = false := by decide
  have d4 : ("organization_id".data == "redirect_url".data) = false := by decide
  have d5 : ("redirect_url".data == "workspace_id".data) = false := by decide
  have d6 : ("redirect_url".data == "organization_id".data) = false := by decide
  rcases r with ⟨ws, org, ru⟩
  cases org with
  | none =>
    simp [stateMembers, decodeStateMembers, memberLookup, List.find?,
      d1, d2, d3, d4, d5, d6, string_mk_data]
  | some o =>
    simp [stateMembers, decodeStateMembers, memberLookup, List.find?,
      d1, d2, d3, d4, d5, d6, string_mk_data]

/-! ## Callback handlers (`app.get('/callback')`, both variants) -/

/-- What the browser receives from the callback endpoint: an HTTP
redirect to a target URL, or an exception escaping the handler (no
response written by it). -/
inductive CallbackResult where
  | redirect (target : String)
  | thrown
deriving DecidableEq, Repr

/-- JS string interpolation of a possibly-`undefined` value. -/
def jsUndefStr : Option String → String
  | none => "undefined"
  | some s => s

/-- Variant A (`src/index.ts` lines 54-89): decode state, exchange the
code, upsert the credentials; on success redirect to
`redirect_url?success=true`, and the `catch` block redirects to
`req.query.redirect_url || '/'` with `?error=auth_failed`. `state` and
`queryRedirectUrl` are the raw query values; `tokenExchange` and
`upsert` are the awaited external calls (`Except.error` = thrown). -/
def callbackA (state : Option String) (queryRedirectUrl : Option String)
    (tokenExchange : Except String Credentials) (upsert : Except String Unit) :
    CallbackResult :=
  let tryBlock : Option String :=
    match state with
    | none => none
    | some s =>
      match decodeState s.data with
      | none => none
      | some d =>
        match tokenExchange with
        | .error _ => none
        | .ok _ =>
          match upsert with
          | .error _ => none
          | .ok _ => some (jsUndefStr d.redirect_url ++ "?success=true")
  match tryBlock with
  | some t => .redirect t
  | none => .redirect (jsOrStr queryRedirectUrl "/" ++ "?error=auth_failed")

/-- Variant B (`src/unnamed/part_000` lines 55-98): decode state,
exchange the code, POST to the bridge (`sink`); the `catch` block
re-parses `req.query.state` when it is truthy — a second `JSON.parse` of
the same unparseable state throws inside the catch and the exception
escapes the handler (`.thrown`). -/
def callbackB (state : Option String) (tokenExchange : Except String Credentials)
    (sink : Except String Unit) : CallbackResult :=
  let tryBlock : Option String :=
    match state with
    | none => none
    | some s =>
      match decodeState s.data with
      | none => none
      | some d =>
        match tokenExchange with
        | .error _ => none
        | .ok _ =>
          match sink with
          | .error _ => none
          | .ok _ => some (jsUndefStr d.redirect_url ++ "?success=true")
  match tryBlock with
  | some t => .redirect t
  | none =>
    match state with
    | none => .redirect ("/" ++ "?error=auth_failed")
    | some s =>
      if s = "" then .redirect ("/" ++ "?error=auth_failed")
      else
        match decodeState s.data with
        | none => .thrown
        | some d => .redirect (jsUndefStr d.redirect_url ++ "?error=auth_failed")

/-! ## Auth initiator (`app.get('/auth/init')`, both variants) -/

/-- Response of `/auth/init`: a 400 with no URL, or the authorization
URL request handed to `generateAuthUrl` (the OAuth client library is an
external collaborator; its arguments are the observable contract). -/
inductive AuthInitRes where
  | badRequest (msg : String)
  | ok (access_type : String) (prompt : String) (scope : List String) (state : List Char)
deriving DecidableEq, Repr

/-- The scopes requested by both variants. -/
def analyticsScopes : List String :=
  ["https://www.googleapis.com/auth/analytics.readonly",
   "https://www.googleapis.com/auth/analytics"]

/-- Variant A's `/auth/init` (src/index.ts lines 31-51): requires truthy
`workspace_id` and `redirect_url`, encodes a two-field state record. -/
def authInitA (workspace_id redirect_url : Option String) : AuthInitRes :=
  if !(jsTruthyStr workspace_id) || !(jsTruthyStr redirect_url) then
    .badRequest "Missing workspace_id or redirect_url"
  else
    .ok "offline" "consent" analyticsScopes
      (encodeState ⟨workspace_id.getD "", none, redirect_url.getD ""⟩)

/-- Variant B's `/auth/init` (part_000 lines 28-52): same check, state
record additionally carries the optional `organization_id`. -/
def authInitB (workspace_id organization_id redirect_url : Option String) : AuthInitRes :=
  if !(jsTruthyStr workspace_id) || !(jsTruthyStr redirect_url) then
    .badRequest "Missing workspace_id or redirect_url"
  else
    .ok "offline" "consent" analyticsScopes
      (encodeState ⟨workspace_id.getD "", organization_id, redirect_url.getD ""⟩)

/-! ## Helpers for stating the query-dispatcher claims -/

/-- Number of refresh calls in an event trace. -/
def countRefresh : List Event → Nat
  | [] => 0
  | .refreshCall :: es => countRefresh es + 1
  | _ :: es => countRefresh es

/-- Number of analytics API calls in an event trace. -/
def countApi : List Event → Nat
  | [] => 0
  | .apiCall _ :: es => countApi es + 1
  | _ :: es => countApi es

/-- Start date of a report request. -/
def reportStartDate : ApiCall → String
  | .runReport _ sd _ _ _ _ => sd
  | .listAccountSummaries => ""

/-- End date of a report request. -/
def reportEndDate : ApiCall → String
  | .runReport _ _ ed _ _ _ => ed
  | .listAccountSummaries => ""

/-- Row limit of a report request. -/
def reportLimit : ApiCall → Option Int
  | .runReport _ _ _ _ _ l => l
  | .listAccountSummaries => none

theorem dispatch_events_prefix (pre : List Event) (tool : String) (params : Params)
    (apiResult : Except String ReportData) :
    ∃ rest, (dispatch pre tool params apiResult).1 = pre ++ rest ∧
      countRefresh rest = 0 ∧ (∀ c, Event.storeUpdate c ∉ rest) := by
  unfold dispatch issueCall
  repeat' split
  all_goals first
    | (refine ⟨[], ?_, ?_, ?_⟩ <;> (simp [countRefresh]; done))
    | (refine ⟨_, rfl, ?_, ?_⟩ <;> (simp [countRefresh]; done))

theorem countRefresh_append (a b : List Event) :
    countRefresh (a ++ b) = countRefresh a + countRefresh b := by
  induction a with
  | nil => simp [countRefresh]
  | cons e es ih =>
    cases e <;> simp [countRefresh, ih] <;> omega

/-! # Claim theorems -/

/-- C4: encoding a state record (base64 of JSON, as the bridge-variant
auth initiator does, dropping an absent organization_id) and decoding it
as the callback handler does yields the original record exactly: all
three correlation fields are preserved, for arbitrary string contents. -/
theorem C4_state_roundtrip (r : StateRecord) :
    decodeState (encodeState r) =
      some ⟨some r.workspace_id, r.organization_id, some r.redirect_url⟩ := by
  rw [encodeState, decodeState, b64decode_encode _ (utf8Encode_lt _), utf8Decode_encode]
  show (jsonParseObj (stringifyState r)).map decodeStateMembers = _
  rw [jsonParseObj_stringifyState]
  show some (decodeStateMembers (stateMembers r)) = _
  rw [decodeStateMembers_state]

/-- C5: a query for a workspace whose credential lookup fails (no
record) or whose record's credentials are null gets a 401 with error
message "Not connected to Google Analytics", and the effect trace is
empty: no identity-provider call and no analytics call. -/
theorem C5_not_connected (lookup : Lookup) (now : Int)
    (refreshResult : Except String Credentials) (tool : String) (params : Params)
    (apiResult : Except String ReportData)
    (h : lookup = .noRecord ∨ lookup = .record none) :
    (queryHandler lookup now refreshResult tool params apiResult).2 =
      ⟨401, .error "Not connected to Google Analytics"⟩ ∧
    (queryHandler lookup now refreshResult tool params apiResult).1 = [] := by
  rcases h with rfl | rfl <;> exact ⟨rfl, rfl⟩

/-- Witness for C5 at a concrete missing-record lookup. -/
theorem C5_not_connected_witness :
    (queryHandler .noRecord 5 (.ok ⟨none, none, none⟩) "get_top_pages"
      ⟨some "123", none, none, some 5⟩ (.ok ⟨7⟩)).2 =
      ⟨401, .error "Not connected to Google Analytics"⟩ ∧
    (queryHandler .noRecord 5 (.ok ⟨none, none, none⟩) "get_top_pages"
      ⟨some "123", none, none, some 5⟩ (.ok ⟨7⟩)).1 = [] :=
  C5_not_connected .noRecord 5 (.ok ⟨none, none, none⟩) "get_top_pages"
    ⟨some "123", none, none, some 5⟩ (.ok ⟨7⟩) (Or.inl rfl)

/-- C8: the disconnect handler never reads the supabase update's
resolved error, so a store update that fails (error set in the resolved
result, as supabase-js reports failures) is still answered
`{success: true}` — not the 500 the claim demands. Evaluated at a
concrete failing store result. -/
theorem C8_store_failure_ignored :
    disconnectHandler (.resolved (some "update failed")) = ⟨200, .success⟩ ∧
    disconnectHandler (.resolved (some "update failed")) ≠ ⟨500, .error "update failed"⟩ := by
  exact ⟨rfl, by simp [disconnectHandler]⟩

/-- C9 counterexample: a request carrying both required fields, with
workspace_id present but empty, is answered 400 with no URL — the code
tests JS truthiness, not presence, so the claim's "every request with
both required fields returns an authorization URL" fails here. -/
theorem C9_counterexample :
    authInitB (some "") none (some "https://app/x") =
      .badRequest "Missing workspace_id or redirect_url" ∧
    (some "" : Option String) ≠ none ∧
    (some "https://app/x" : Option String) ≠ none := by
  refine ⟨rfl, by simp, by simp⟩

/-- C9 (amended): a request with workspace_id or redirect_url missing or
empty gets a 400 and no URL (both variants; the handlers are pure, so no
side effects); a request with both fields present and non-empty gets an
authorization URL with offline access, forced consent prompt, both
analytics scopes, and the encoded state token embedded. -/
theorem C9_auth_init (w o ru : Option String) :
    ((w = none ∨ w = some "" ∨ ru = none ∨ ru = some "") →
      authInitA w ru = .badRequest "Missing workspace_id or redirect_url" ∧
      authInitB w o ru = .badRequest "Missing workspace_id or redirect_url") ∧
    (∀ ws rus, w = some ws → ws ≠ "" → ru = some rus → rus ≠ "" →
      authInitA w ru = .ok "offline" "consent" analyticsScopes
        (encodeState ⟨ws, none, rus⟩) ∧
      authInitB w o ru = .ok "offline" "consent" analyticsScopes
        (encodeState ⟨ws, o, rus⟩)) := by
  constructor
  · intro h
    rcases h with rfl | rfl | rfl | rfl <;>
      simp [authInitA, authInitB, jsTruthyStr]
  · intro ws rus hw hws hru hrus
    subst hw; subst hru
    simp [authInitA, authInitB, jsTruthyStr, hws, hrus]

/-- Witness for C9 (amended) at concrete inputs on both branches. -/
theorem C9_auth_init_witness :
    (authInitA none (some "https://app/x") =
      .badRequest "Missing workspace_id or redirect_url" ∧
     authInitB none (some "org") (some "https://app/x") =
      .badRequest "Missing workspace_id or redirect_url") ∧
    (authInitA (some "w1") (some "https://app/x") = .ok "offline" "consent" analyticsScopes
      (encodeState ⟨"w1", none, "https://app/x"⟩) ∧
     authInitB (some "w1") (some "org") (some "https://app/x") =
      .ok "offline" "consent" analyticsScopes
        (encodeState ⟨"w1", some "org", "https://app/x"⟩)) :=
  ⟨(C9_auth_init none (some "org") (some "https://app/x")).1 (Or.inl rfl),
   (C9_auth_init (some "w1") (some "org") (some "https://app/x")).2
     "w1" "https://app/x" rfl (by simp) rfl (by simp)⟩

/-- C10: the dispatcher substitutes defaults by JS truthiness, not
presence: a present-but-zero limit for get_top_pages yields the default
10, and present-but-empty start or end dates yield the default
30daysAgo/today in every report call. -/
theorem C10_falsy_param_defaults (params : Params) :
    (params.limit = some 0 → reportLimit (topPagesCall params) = some 10) ∧
    (params.start_date = some "" →
      reportStartDate (overviewCall params) = "30daysAgo" ∧
      reportStartDate (topPagesCall params) = "30daysAgo" ∧
      reportStartDate (sourcesCall params) = "30daysAgo") ∧
    (params.end_date = some "" →
      reportEndDate (overviewCall params) = "today" ∧
      reportEndDate (topPagesCall params) = "today" ∧
      reportEndDate (sourcesCall params) = "today") := by
  refine ⟨?_, ?_, ?_⟩ <;> intro h <;>
    simp [topPagesCall, overviewCall, sourcesCall, reportLimit, reportStartDate,
      reportEndDate, jsOrInt, jsOrStr, h]

/-- Witness for C10 at a request with limit 0 and empty date strings. -/
theorem C10_falsy_param_defaults_witness :
    reportLimit (topPagesCall ⟨none, some "", some "", some 0⟩) = some 10 ∧
    reportStartDate (overviewCall ⟨none, some "", some "", some 0⟩) = "30daysAgo" ∧
    reportEndDate (overviewCall ⟨none, some "", some "", some 0⟩) = "today" :=
  ⟨(C10_falsy_param_defaults ⟨none, some "", some "", some 0⟩).1 rfl,
   ((C10_falsy_param_defaults ⟨none, some "", some "", some 0⟩).2.1 rfl).1,
   ((C10_falsy_param_defaults ⟨none, some "", some "", some 0⟩).2.2 rfl).1⟩

/-- C1: after a successful refresh of an expired credential, the handler
persists exactly the merged credentials, whose refresh_token is the old
one when the refresh response omits it, the response's token when the
response carries a non-empty one, and is never absent when the old one
was present. -/
theorem C1_refresh_token_preservation (creds resp : Credentials) (now : Int)
    (tool : String) (params : Params) (apiResult : Except String ReportData)
    (hexp : isExpired creds now = true) :
    (∃ rest, (queryHandler (.record (some creds)) now (.ok resp) tool params apiResult).1 =
      .refreshCall :: .storeUpdate (refreshedCredentials creds resp) :: rest) ∧
    (resp.refresh_token = none →
      (refreshedCredentials creds resp).refresh_token = creds.refresh_token) ∧
    (∀ s, s ≠ "" → resp.refresh_token = some s →
      (refreshedCredentials creds resp).refresh_token = some s) ∧
    (creds.refresh_token.isSome → (refreshedCredentials creds resp).refresh_token.isSome) := by
  refine ⟨?_, ?_, ?_, ?_⟩
  · obtain ⟨rest, hrest, -, -⟩ :=
      dispatch_events_prefix [.refreshCall, .storeUpdate (refreshedCredentials creds resp)]
        tool params apiResult
    refine ⟨rest, ?_⟩
    simp only [queryHandler, hexp, if_true]
    rw [hrest]
    rfl
  · intro h
    simp [refreshedCredentials, jsOrOpt, jsTruthyStr, h]
  · intro s hs h
    simp [refreshedCredentials, jsOrOpt, jsTruthyStr, h, hs]
  · intro h
    cases hrt : resp.refresh_token with
    | none => simpa [refreshedCredentials, jsOrOpt, jsTruthyStr, hrt] using h
    | some s =>
      by_cases hs : s = "" <;>
        simp_all [refreshedCredentials, jsOrOpt, jsTruthyStr, hrt, hs]

/-- Witness for C1 at a concrete expired credential and refresh
response omitting the refresh token. -/
theorem C1_refresh_token_preservation_witness :
    isExpired ⟨some "a", some "old", some 1⟩ 2 = true ∧
    ((∃ rest, (queryHandler (.record (some ⟨some "a", some "old", some 1⟩)) 2
        (.ok ⟨some "a2", none, some 9⟩) "list_properties" ⟨none, none, none, none⟩
        (.ok ⟨3⟩)).1 =
      .refreshCall :: .storeUpdate (refreshedCredentials ⟨some "a", some "old", some 1⟩
        ⟨some "a2", none, some 9⟩) :: rest) ∧
    ((⟨some "a2", none, some 9⟩ : Credentials).refresh_token = none →
      (refreshedCredentials ⟨some "a", some "old", some 1⟩
        ⟨some "a2", none, some 9⟩).refresh_token =
        (⟨some "a", some "old", some 1⟩ : Credentials).refresh_token) ∧
    (∀ s, s ≠ "" → (⟨some "a2", none, some 9⟩ : Credentials).refresh_token = some s →
      (refreshedCredentials ⟨some "a", some "old", some 1⟩
        ⟨some "a2", none, some 9⟩).refresh_token = some s) ∧
    ((⟨some "a", some "old", some 1⟩ : Credentials).refresh_token.isSome →
      (refreshedCredentials ⟨some "a", some "old", some 1⟩
        ⟨some "a2", none, some 9⟩).refresh_token.isSome)) :=
  ⟨by decide,
   C1_refresh_token_preservation ⟨some "a", some "old", some 1⟩ ⟨some "a2", none, some 9⟩
     2 "list_properties" ⟨none, none, none, none⟩ (.ok ⟨3⟩) (by decide)⟩

/-- C2 counterexample: a credential whose expiry_date is set to epoch 0
— set, and strictly in the past of now = 5 — triggers zero refresh
calls, because the code's freshness check tests JS truthiness of
expiry_date first and 0 is falsy; the claim demands exactly one. -/
theorem C2_counterexample :
    (⟨some "at", some "rt", some 0⟩ : Credentials).expiry_date = some 0 ∧
    ((0 : Int) < 5) ∧
    countRefresh (queryHandler (.record (some ⟨some "at", some "rt", some 0⟩)) 5
      (.ok ⟨some "at2", none, some 99⟩) "list_properties" ⟨none, none, none, none⟩
      (.ok ⟨1⟩)).1 = 0 := by
  refine ⟨rfl, by norm_num, ?_⟩
  rfl

/-- C2 (amended): a stored expiry_date that is set, non-zero and
strictly in the past triggers exactly one refresh call, and on refresh
success the trace begins with the refresh followed by the store update
of the merged credentials before any dispatch effect; an absent, zero,
or not-yet-passed expiry_date triggers zero refresh calls. -/
theorem C2_refresh_discipline (creds : Credentials) (now : Int)
    (refreshResult : Except String Credentials) (tool : String) (params : Params)
    (apiResult : Except String ReportData) :
    (∀ e : Int, creds.expiry_date = some e → e ≠ 0 → now > e →
      countRefresh (queryHandler (.record (some creds)) now refreshResult
        tool params apiResult).1 = 1 ∧
      (∀ resp, refreshResult = .ok resp → ∃ rest,
        (queryHandler (.record (some creds)) now refreshResult tool params apiResult).1 =
          .refreshCall :: .storeUpdate (refreshedCredentials creds resp) :: rest ∧
        countRefresh rest = 0 ∧ (∀ c, Event.storeUpdate c ∉ rest))) ∧
    ((creds.expiry_date = none ∨ creds.expiry_date = some 0 ∨
        (∃ e, creds.expiry_date = some e ∧ now ≤ e)) →
      countRefresh (queryHandler (.record (some creds)) now refreshResult
        tool params apiResult).1 = 0) := by
  constructor
  · intro e he hne hgt
    have hexp : isExpired creds now = true := by
      simp [isExpired, he, hne, hgt]
    constructor
    · cases refreshResult with
      | error msg => simp [queryHandler, hexp, countRefresh]
      | ok resp =>
        obtain ⟨rest, hrest, hcount, -⟩ :=
          dispatch_events_prefix [.refreshCall, .storeUpdate (refreshedCredentials creds resp)]
            tool params apiResult
        simp only [queryHandler, hexp, if_true]
        rw [hrest, countRefresh_append, hcount]
        rfl
    · intro resp hresp
      subst hresp
      obtain ⟨rest, hrest, hcount, hsu⟩ :=
        dispatch_events_prefix [.refreshCall, .storeUpdate (refreshedCredentials creds resp)]
          tool params apiResult
      refine ⟨rest, ?_, hcount, hsu⟩
      simp only [queryHandler, hexp, if_true]
      rw [hrest]
      rfl
  · intro h
    have hexp : isExpired creds now = false := by
      rcases h with he | he | ⟨e, he, hle⟩
      · simp [isExpired, he]
      · simp [isExpired, he]
      · simp [isExpired, he]
        omega
    obtain ⟨rest, hrest, hcount, -⟩ := dispatch_events_prefix [] tool params apiResult
    simp only [queryHandler, hexp, if_false, Bool.false_eq_true]
    rw [hrest, countRefresh_append, hcount]
    rfl

/-- Witness for C2 (amended): one refresh for an expired non-zero
expiry, zero for a future expiry. -/
theorem C2_refresh_discipline_witness :
    countRefresh (queryHandler (.record (some ⟨some "a", some "r", some 1⟩)) 2
      (.ok ⟨some "b", none, some 9⟩) "list_properties" ⟨none, none, none, none⟩
      (.ok ⟨1⟩)).1 = 1 ∧
    countRefresh (queryHandler (.record (some ⟨some "a", some "r", some 9⟩)) 2
      (.ok ⟨some "b", none, some 9⟩) "list_properties" ⟨none, none, none, none⟩
      (.ok ⟨1⟩)).1 = 0 :=
  ⟨((C2_refresh_discipline ⟨some "a", some "r", some 1⟩ 2 (.ok ⟨some "b", none, some 9⟩)
      "list_properties" ⟨none, none, none, none⟩ (.ok ⟨1⟩)).1 1 rfl (by decide)
      (by norm_num)).1,
   (C2_refresh_discipline ⟨some "a", some "r", some 9⟩ 2 (.ok ⟨some "b", none, some 9⟩)
      "list_properties" ⟨none, none, none, none⟩ (.ok ⟨1⟩)).2
      (Or.inr (Or.inr ⟨9, rfl, by norm_num⟩))⟩

theorem dispatch_unknown (pre : List Event) (tool : String) (params : Params)
    (apiResult : Except String ReportData)
    (h1 : tool ≠ "get_traffic_overview") (h2 : tool ≠ "get_top_pages")
    (h3 : tool ≠ "get_traffic_sources") (h4 : tool ≠ "list_properties") :
    dispatch pre tool params apiResult =
      (pre, ⟨400, .error ("Unknown tool: " ++ tool)⟩) := by
  simp [dispatch, h1, h2, h3, h4]

/-- C6: a query whose tool is outside the four supported names issues no
analytics API call, and — once the request reaches the dispatch switch
(credentials present and either not expired or refreshed successfully) —
is answered 400 with a message naming the unrecognized tool. -/
theorem C6_unknown_tool (lookup : Lookup) (now : Int)
    (refreshResult : Except String Credentials) (tool : String) (params : Params)
    (apiResult : Except String ReportData)
    (h1 : tool ≠ "get_traffic_overview") (h2 : tool ≠ "get_top_pages")
    (h3 : tool ≠ "get_traffic_sources") (h4 : tool ≠ "list_properties") :
    countApi (queryHandler lookup now refreshResult tool params apiResult).1 = 0 ∧
    (∀ creds, lookup = .record (some creds) →
      (isExpired creds now = false →
        (queryHandler lookup now refreshResult tool params apiResult).2 =
          ⟨400, .error ("Unknown tool: " ++ tool)⟩) ∧
      (∀ resp, refreshResult = .ok resp →
        (queryHandler lookup now refreshResult tool params apiResult).2 =
          ⟨400, .error ("Unknown tool: " ++ tool)⟩)) := by
  cases lookup with
  | noRecord => exact ⟨rfl, by intro creds hc; cases hc⟩
  | record ocreds =>
    cases ocreds with
    | none => exact ⟨rfl, by intro creds hc; cases hc⟩
    | some creds =>
      cases hexp : isExpired creds now with
      | false =>
        have hd := dispatch_unknown [] tool params apiResult h1 h2 h3 h4
        refine ⟨?_, ?_⟩
        · simp [queryHandler, hexp, hd, countApi]
        · intro creds' hc
          cases hc
          exact ⟨fun _ => by simp [queryHandler, hexp, hd],
            fun resp hresp => by simp [queryHandler, hexp, hd]⟩
      | true =>
        cases refreshResult with
        | error msg =>
          refine ⟨by simp [queryHandler, hexp, countApi], ?_⟩
          intro creds' hc
          cases hc
          exact ⟨fun hfe => by simp [hexp] at hfe, fun resp hresp => by simp at hresp⟩
        | ok resp =>
          have hd := dispatch_unknown
            [.refreshCall, .storeUpdate (refreshedCredentials creds resp)]
            tool params apiResult h1 h2 h3 h4
          refine ⟨by simp [queryHandler, hexp, hd, countApi], ?_⟩
          intro creds' hc
          cases hc
          exact ⟨fun hfe => by simp [hexp] at hfe,
            fun resp' hresp' => by
              cases hresp'
              simp [queryHandler, hexp, hd]⟩

/-- Witness for C6 at a concrete unknown tool with valid credentials. -/
theorem C6_unknown_tool_witness :
    countApi (queryHandler (.record (some ⟨some "a", some "r", none⟩)) 5
      (.ok ⟨none, none, none⟩) "get_sessions" ⟨some "123", none, none, none⟩
      (.ok ⟨7⟩)).1 = 0 ∧
    (queryHandler (.record (some ⟨some "a", some "r", none⟩)) 5 (.ok ⟨none, none, none⟩)
      "get_sessions" ⟨some "123", none, none, none⟩ (.ok ⟨7⟩)).2 =
      ⟨400, .error ("Unknown tool: " ++ "get_sessions")⟩ :=
  ⟨(C6_unknown_tool (.record (some ⟨some "a", some "r", none⟩)) 5 (.ok ⟨none, none, none⟩)
      "get_sessions" ⟨some "123", none, none, none⟩ (.ok ⟨7⟩)
      (by decide) (by decide) (by decide) (by decide)).1,
   ((C6_unknown_tool (.record (some ⟨some "a", some "r", none⟩)) 5 (.ok ⟨none, none, none⟩)
      "get_sessions" ⟨some "123", none, none, none⟩ (.ok ⟨7⟩)
      (by decide) (by decide) (by decide) (by decide)).2
      ⟨some "a", some "r", none⟩ rfl).1 (by decide)⟩

/-- C7 counterexample: with a valid non-expired credential and caller
params carrying limit 0, the issued get_top_pages report call uses limit
10, not the caller-supplied 0 — the claim's "the caller-supplied limit
(default 10 when absent)" fails on present-but-falsy values. -/
theorem C7_counterexample :
    queryHandler (.record (some ⟨some "tok", some "r", none⟩)) 5 (.ok ⟨none, none, none⟩)
      "get_top_pages" ⟨some "123", none, none, some 0⟩ (.ok ⟨7⟩) =
      ([.apiCall (.runReport "properties/123" "30daysAgo" "today"
        ["screenPageViews", "activeUsers"] ["pagePath"] (some 10))], ⟨200, .data ⟨7⟩⟩) ∧
    (10 : Int) ≠ 0 := by
  refine ⟨rfl, by norm_num⟩

/-- C7 (amended): for tool get_top_pages with a stored non-expired
credential, exactly one report call is issued, with dimension pagePath,
metrics screenPageViews and activeUsers, the caller-supplied limit when
non-zero (default 10 when absent or 0), the caller-supplied dates when
non-empty (defaults 30daysAgo/today when absent or empty), and the
response wraps the API result under a data key with status 200. -/
theorem C7_top_pages (creds : Credentials) (now : Int)
    (refreshResult : Except String Credentials) (params : Params) (d : ReportData)
    (hexp : isExpired creds now = false) :
    ∃ sd ed lim,
      queryHandler (.record (some creds)) now refreshResult "get_top_pages" params (.ok d) =
        ([.apiCall (.runReport (propertyStr params) sd ed
          ["screenPageViews", "activeUsers"] ["pagePath"] (some lim))], ⟨200, .data d⟩) ∧
      ((params.limit = none → lim = 10) ∧ (params.limit = some 0 → lim = 10) ∧
        (∀ l, l ≠ 0 → params.limit = some l → lim = l)) ∧
      ((params.start_date = none → sd = "30daysAgo") ∧
        (params.start_date = some "" → sd = "30daysAgo") ∧
        (∀ s, s ≠ "" → params.start_date = some s → sd = s)) ∧
      ((params.end_date = none → ed = "today") ∧
        (params.end_date = some "" → ed = "today") ∧
        (∀ s, s ≠ "" → params.end_date = some s → ed = s)) := by
  refine ⟨jsOrStr params.start_date "30daysAgo", jsOrStr params.end_date "today",
    jsOrInt params.limit 10, ?_, ?_, ?_, ?_⟩
  · simp [queryHandler, hexp, dispatch, issueCall, topPagesCall]
  · refine ⟨fun h => by simp [jsOrInt, h], fun h => by simp [jsOrInt, h],
      fun l hl h => by simp [jsOrInt, h, hl]⟩
  · refine ⟨fun h => by simp [jsOrStr, h], fun h => by simp [jsOrStr, h],
      fun s hs h => by simp [jsOrStr, h, hs]⟩
  · refine ⟨fun h => by simp [jsOrStr, h], fun h => by simp [jsOrStr, h],
      fun s hs h => by simp [jsOrStr, h, hs]⟩

/-- Witness for C7 (amended) at the spec's scenario: limit 5, default
dates, property 123. -/
theorem C7_top_pages_witness :
    ∃ sd ed lim,
      queryHandler (.record (some ⟨some "tok", some "r", none⟩)) 5 (.ok ⟨none, none, none⟩)
        "get_top_pages" ⟨some "123", none, none, some 5⟩ (.ok ⟨7⟩) =
        ([.apiCall (.runReport (propertyStr ⟨some "123", none, none, some 5⟩) sd ed
          ["screenPageViews", "activeUsers"] ["pagePath"] (some lim))], ⟨200, .data ⟨7⟩⟩) ∧
      (((⟨some "123", none, none, some 5⟩ : Params).limit = none → lim = 10) ∧
        ((⟨some "123", none, none, some 5⟩ : Params).limit = some 0 → lim = 10) ∧
        (∀ l, l ≠ 0 → (⟨some "123", none, none, some 5⟩ : Params).limit = some l → lim = l)) ∧
      (((⟨some "123", none, none, some 5⟩ : Params).start_date = none → sd = "30daysAgo") ∧
        ((⟨some "123", none, none, some 5⟩ : Params).start_date = some "" → sd = "30daysAgo") ∧
        (∀ s, s ≠ "" → (⟨some "123", none, none, some 5⟩ : Params).start_date = some s →
          sd = s)) ∧
      (((⟨some "123", none, none, some 5⟩ : Params).end_date = none → ed = "today") ∧
        ((⟨some "123", none, none, some 5⟩ : Params).end_date = some "" → ed = "today") ∧
        (∀ s, s ≠ "" → (⟨some "123", none, none, some 5⟩ : Params).end_date = some s →
          ed = s)) :=
  C7_top_pages ⟨some "tok", some "r", none⟩ 5 (.ok ⟨none, none, none⟩)
    ⟨some "123", none, none, some 5⟩ ⟨7⟩ (by decide)

/-- C3: the bridge-variant callback handler does not always redirect: on
a state value whose base64 decoding is not JSON (here the text
"not json"), the try block fails, and the catch block's second
JSON.parse of the same state throws again, so the exception escapes the
handler instead of any redirect — while the direct-store variant's catch
always produces a redirect for every input. -/
theorem C3_callbackB_unhandled_exception :
    callbackB (some (String.mk (b64encode (utf8Encode "not json".data))))
      (.error "invalid_grant") (.error "sink unreachable") = .thrown ∧
    (∀ state queryRedirectUrl tokenExchange upsert,
      ∃ t, callbackA state queryRedirectUrl tokenExchange upsert = .redirect t) := by
  constructor
  · have hdec : decodeState (String.mk (b64encode (utf8Encode "not json".data))).data
        = none := by
      show decodeState (b64encode (utf8Encode "not json".data)) = none
      rw [decodeState, b64decode_encode _ (utf8Encode_lt _), utf8Decode_encode]
      rfl
    have hne : String.mk (b64encode (utf8Encode "not json".data)) ≠ "" := by decide
    unfold callbackB
    simp [hdec, hne]
  · intro state queryRedirectUrl tokenExchange upsert
    unfold callbackA
    repeat' split
    all_goals exact ⟨_, rfl⟩

end Mcp
